import Mathlib

/-!
Shallow embedding of the ecommerce-cart core:
the cart reducer (`useCart.ts`), the pure calculation functions
(`cartCalculations.ts`) and the rounding helper (`currency.ts`).

Modelling conventions:
* JavaScript strings are lists of characters (`List Char`); `String.prototype.trim`
  and `String.prototype.toUpperCase` are modelled by `jsTrim` and `jsToUpperCase`.
* JavaScript numbers holding money are modelled as rationals (`ℚ`); quantities,
  which the spec declares integers, as `ℤ`; `Math.round` is Mathlib's `round`
  (round half toward positive infinity), matching JS semantics.
* Branded `ProductId` values are modelled as `ℕ`.
-/

namespace EcommerceCart

/-- JS `String.prototype.trim`: drop leading and trailing whitespace. -/
def jsTrim (s : List Char) : List Char :=
  ((s.dropWhile Char.isWhitespace).reverse.dropWhile Char.isWhitespace).reverse

/-- JS `String.prototype.toUpperCase` (ASCII fragment). -/
def jsToUpperCase (s : List Char) : List Char :=
  s.map Char.toUpper

/-- `Product` from `types.ts`: branded numeric id, display name, unit price. -/
structure Product where
  id : ℕ
  name : List Char
  price : ℚ
deriving DecidableEq, Repr

/-- `CartItem` from `types.ts`: a product together with a quantity. -/
structure CartItem where
  product : Product
  quantity : ℤ
deriving DecidableEq, Repr

/-- `Discount` from `types.ts`: discriminated union of percentage and fixed. -/
inductive Discount where
  | percentage (value : ℚ)
  | fixed (value : ℚ)
deriving DecidableEq, Repr

/-- `PromoCode` from `types.ts`. -/
structure PromoCode where
  code : List Char
  discount : Discount
  displayText : List Char
deriving DecidableEq, Repr

/-- `CartState` from `types.ts`: line items plus at most one applied promo. -/
structure CartState where
  items : List CartItem
  appliedPromoCode : Option PromoCode
deriving DecidableEq, Repr

/-- `CartTotals` from `types.ts`. -/
structure CartTotals where
  subtotal : ℚ
  discountAmount : ℚ
  total : ℚ
  itemCount : ℤ
deriving DecidableEq, Repr

/-- `CartAction` from `types.ts`: the six reducer actions. -/
inductive CartAction where
  | addItem (product : Product) (quantity : ℤ)
  | removeItem (productId : ℕ)
  | updateQuantity (productId : ℕ) (quantity : ℤ)
  | applyPromo (promoCode : PromoCode)
  | removePromo
  | clearCart
deriving DecidableEq, Repr

/-- `initialState` from `useCart.ts`: empty cart, no promo. -/
def initialState : CartState :=
  { items := [], appliedPromoCode := none }

/-- `cartReducer` from `useCart.ts`, case by case.
`ADD_ITEM` looks up the first index whose product id matches (`findIndex`)
and updates that position (`map` over index/value pairs), else appends. -/
def cartReducer (state : CartState) (action : CartAction) : CartState :=
  match action with
  | .addItem product quantity =>
    match state.items.findIdx? (fun item => item.product.id == product.id) with
    | some existingIndex =>
      { state with
        items := state.items.mapIdx (fun index item =>
          if index == existingIndex then
            { item with quantity := item.quantity + quantity }
          else item) }
    | none =>
      { state with items := state.items ++ [{ product := product, quantity := quantity }] }
  | .removeItem productId =>
    { state with items := state.items.filter (fun item => item.product.id != productId) }
  | .updateQuantity productId quantity =>
    if quantity ≤ 0 then
      { state with items := state.items.filter (fun item => item.product.id != productId) }
    else
      { state with
        items := state.items.map (fun item =>
          if item.product.id == productId then { item with quantity := quantity } else item) }
  | .applyPromo promoCode =>
    { state with appliedPromoCode := some promoCode }
  | .removePromo =>
    { state with appliedPromoCode := none }
  | .clearCart =>
    initialState

/-- `roundToTwoDecimals` from `currency.ts`: `Math.round(value * 100) / 100`. -/
def roundToTwoDecimals (value : ℚ) : ℚ :=
  (round (value * 100) : ℤ) / 100

/-- `calculateItemSubtotal` from `cartCalculations.ts`. -/
def calculateItemSubtotal (item : CartItem) : ℚ :=
  roundToTwoDecimals (item.product.price * item.quantity)

/-- `calculateDiscountAmount` from `cartCalculations.ts`: `null` yields 0,
otherwise the raw amount per discount kind, clamped by the subtotal and rounded. -/
def calculateDiscountAmount (subtotal : ℚ) (discount : Option Discount) : ℚ :=
  match discount with
  | none => 0
  | some d =>
    let discountAmount : ℚ :=
      match d with
      | .percentage value => subtotal * value / 100
      | .fixed value => value
    roundToTwoDecimals (min discountAmount subtotal)

/-- `calculateItemCount` from `cartCalculations.ts`. -/
def calculateItemCount (items : List CartItem) : ℤ :=
  items.foldl (fun count item => count + item.quantity) 0

/-- `calculateCartTotals` from `cartCalculations.ts`. -/
def calculateCartTotals (state : CartState) : CartTotals :=
  let subtotal := roundToTwoDecimals
    (state.items.foldl (fun sum item => sum + calculateItemSubtotal item) 0)
  let discountAmount := calculateDiscountAmount subtotal
    (state.appliedPromoCode.map (fun pc => pc.discount))
  let total := roundToTwoDecimals (max 0 (subtotal - discountAmount))
  let itemCount := calculateItemCount state.items
  { subtotal := subtotal, discountAmount := discountAmount,
    total := total, itemCount := itemCount }

/-- `validatePromoCode` from `cartCalculations.ts`: trim, uppercase, first match. -/
def validatePromoCode (code : List Char) (availableCodes : List PromoCode) :
    Option PromoCode :=
  let normalizedCode := jsToUpperCase (jsTrim code)
  availableCodes.find? (fun pc => pc.code == normalizedCode)

/-- Hook-level `addItem` from `useCart.ts`: dispatches `ADD_ITEM`. -/
def addItem (state : CartState) (product : Product) (quantity : ℤ) : CartState :=
  cartReducer state (.addItem product quantity)

/-- Hook-level `removeItem` from `useCart.ts`: dispatches `REMOVE_ITEM`. -/
def removeItem (state : CartState) (productId : ℕ) : CartState :=
  cartReducer state (.removeItem productId)

/-- Hook-level `updateQuantity` from `useCart.ts`: dispatches `UPDATE_QUANTITY`. -/
def updateQuantity (state : CartState) (productId : ℕ) (quantity : ℤ) : CartState :=
  cartReducer state (.updateQuantity productId quantity)

/-- Hook-level `applyPromoCode` from `useCart.ts`: validates, then either
dispatches `APPLY_PROMO` and returns `true`, or returns `false` without
dispatching.  The returned pair is (boolean result, state after the call). -/
def applyPromoCode (state : CartState) (code : List Char)
    (availableCodes : List PromoCode) : Bool × CartState :=
  match validatePromoCode code availableCodes with
  | some validCode => (true, cartReducer state (.applyPromo validCode))
  | none => (false, state)

/-- Hook-level `removePromoCode` from `useCart.ts`: dispatches `REMOVE_PROMO`. -/
def removePromoCode (state : CartState) : CartState :=
  cartReducer state .removePromo

/-- Hook-level `clearCart` from `useCart.ts`: dispatches `CLEAR_CART`. -/
def clearCart (state : CartState) : CartState :=
  cartReducer state .clearCart

/-! ### Specification-level measures and invariants -/

/-- All line items carry a positive quantity (data-model invariant). -/
def goodState (s : CartState) : Prop :=
  ∀ item ∈ s.items, 1 ≤ item.quantity

/-- No two line items share a product identifier (data-model invariant). -/
def idsNodup (s : CartState) : Prop :=
  (s.items.map (fun item => item.product.id)).Nodup

/-- Data-model well-formedness: non-negative prices, positive quantities. -/
def wellFormed (s : CartState) : Prop :=
  ∀ item ∈ s.items, 0 ≤ item.product.price ∧ 1 ≤ item.quantity

/-- Number of line items carrying a given product identifier. -/
def countId (productId : ℕ) (items : List CartItem) : ℕ :=
  (items.filter (fun item => item.product.id == productId)).length

/-- Quantity of the first line item with the given identifier, 0 when absent. -/
def qtyOf (productId : ℕ) (items : List CartItem) : ℤ :=
  (((items.find? (fun item => item.product.id == productId)).map
    (fun item => item.quantity)).getD 0)

/-- Recursive characterisation of the `ADD_ITEM` list transformation:
update the first entry with a matching product id, else append. -/
def addToItems (product : Product) (quantity : ℤ) : List CartItem → List CartItem
  | [] => [{ product := product, quantity := quantity }]
  | item :: rest =>
    if item.product.id == product.id then
      { item with quantity := item.quantity + quantity } :: rest
    else
      item :: addToItems product quantity rest

/-- The list transformation of the reducer's `ADD_ITEM` branch, as written. -/
def addItemBranch (p : Product) (q : ℤ) (l : List CartItem) : List CartItem :=
  match l.findIdx? (fun item => item.product.id == p.id) with
  | some existingIndex =>
    l.mapIdx (fun index item =>
      if index == existingIndex then { item with quantity := item.quantity + q } else item)
  | none => l ++ [{ product := p, quantity := q }]

/-- The item-level actions, with a positivity guard on `ADD_ITEM` payloads. -/
def itemActionOk (a : CartAction) : Bool :=
  match a with
  | .addItem _ quantity => decide (1 ≤ quantity)
  | .removeItem _ => true
  | .updateQuantity _ _ => true
  | .applyPromo _ => false
  | .removePromo => false
  | .clearCart => false

/-- A concrete state used to instantiate hypothesis-bearing theorems. -/
def sampleState : CartState :=
  { items := [{ product := { id := 1, name := [], price := 5 }, quantity := 3 }],
    appliedPromoCode := none }

/-- A 15-percent promo code, as in the static catalog. -/
def pctPromo : PromoCode :=
  { code := "SAVE15".data, discount := .percentage 15, displayText := [] }

/-- A fixed 50-off promo code. -/
def fixedPromo : PromoCode :=
  { code := "FLAT50".data, discount := .fixed 50, displayText := [] }

/-- A concrete cart whose subtotal is 100 with the percentage promo applied. -/
def pctCart : CartState :=
  { items := [{ product := { id := 2, name := [], price := 100 }, quantity := 1 }],
    appliedPromoCode := some pctPromo }

/-- A concrete cart whose subtotal is 30 with the fixed promo applied. -/
def fixedCart : CartState :=
  { items := [{ product := { id := 3, name := [], price := 30 }, quantity := 1 }],
    appliedPromoCode := some fixedPromo }

/-- The static promo catalog (a cut-down copy of `data.ts`). -/
def sampleCatalog : List PromoCode := [pctPromo, fixedPromo]

lemma mapIdx_congr_self {α : Type _} {f : ℕ → α → α} {l : List α}
    (h : ∀ i a, f i a = a) : l.mapIdx f = l := by
  apply List.ext_getElem (by simp)
  intro n h1 h2
  simp [List.getElem_mapIdx, h]

lemma mapIdx_congr_fun {α β : Type _} {f g : ℕ → α → β} {l : List α}
    (h : ∀ i a, f i a = g i a) : l.mapIdx f = l.mapIdx g := by
  apply List.ext_getElem (by simp)
  intro n h1 h2
  simp [List.getElem_mapIdx, h]

lemma cartReducer_addItem (s : CartState) (p : Product) (q : ℤ) :
    cartReducer s (.addItem p q) = { s with items := addItemBranch p q s.items } := by
  rcases s with ⟨items, promo⟩
  simp only [cartReducer, addItemBranch]
  rcases h : items.findIdx? (fun item => item.product.id == p.id) with _ | j <;> simp [h]

lemma addItemBranch_eq_addToItems (p : Product) (q : ℤ) :
    ∀ l : List CartItem, addItemBranch p q l = addToItems p q l := by
  intro l
  induction l with
  | nil => rfl
  | cons a l ih =>
    unfold addItemBranch at ih ⊢
    by_cases ha : (a.product.id == p.id) = true
    · rw [List.findIdx?_cons, if_pos ha]
      simp only [addToItems, ha, if_true, List.mapIdx_cons, beq_self_eq_true]
      rw [mapIdx_congr_self (by intro i b; rfl)]
    · rw [List.findIdx?_cons, if_neg ha, List.findIdx?_succ]
      rcases hfind : List.findIdx? (fun item => item.product.id == p.id) l with _ | j
      · rw [hfind] at ih
        simp only [hfind, Option.map_none', addToItems, ha, if_false, List.cons_append,
          List.cons.injEq, true_and]
        simpa using ih
      · rw [hfind] at ih
        have h0 : ((0 : ℕ) == j + 1) = false := by simp
        simp only [hfind, Option.map_some', addToItems, ha, List.mapIdx_cons, h0,
          Bool.false_eq_true, if_false]
        congr 1
        rw [mapIdx_congr_fun (g := fun index item =>
          if index == j then { item with quantity := item.quantity + q } else item)
          (by intro i b; by_cases hij : i = j <;> simp [hij])]
        exact ih

lemma addToItems_quantity_pos (p : Product) (q : ℤ) (hq : 1 ≤ q) :
    ∀ l : List CartItem, (∀ x ∈ l, 1 ≤ x.quantity) →
      ∀ x ∈ addToItems p q l, 1 ≤ x.quantity := by
  intro l
  induction l with
  | nil =>
    intro _ x hx
    simp only [addToItems, List.mem_singleton] at hx
    subst hx
    exact hq
  | cons a l ih =>
    intro hl x hx
    by_cases ha : (a.product.id == p.id) = true
    · simp only [addToItems, ha, if_true, List.mem_cons] at hx
      rcases hx with hx | hx
      · subst hx
        have h1 : 1 ≤ a.quantity := hl a (List.mem_cons_self a l)
        simpa using by linarith
      · exact hl x (List.mem_cons_of_mem a hx)
    · simp only [addToItems, ha, Bool.false_eq_true, if_false, List.mem_cons] at hx
      rcases hx with hx | hx
      · subst hx
        exact hl x (List.mem_cons_self x l)
      · exact ih (fun y hy => hl y (List.mem_cons_of_mem a hy)) x hx

lemma addToItems_map_id (p : Product) (q : ℤ) :
    ∀ l : List CartItem,
      (addToItems p q l).map (fun item => item.product.id) =
        (if p.id ∈ l.map (fun item => item.product.id)
         then l.map (fun item => item.product.id)
         else l.map (fun item => item.product.id) ++ [p.id]) := by
  intro l
  induction l with
  | nil => simp [addToItems]
  | cons a l ih =>
    by_cases ha : (a.product.id == p.id) = true
    · have haid : a.product.id = p.id := by simpa using ha
      simp [addToItems, ha, haid]
    · have haid : ¬ a.product.id = p.id := by simpa using ha
      have haid' : ¬ p.id = a.product.id := fun h => haid h.symm
      by_cases hmem : p.id ∈ l.map (fun item => item.product.id)
      · simp [addToItems, ha, hmem, haid', ih]
      · simp [addToItems, ha, hmem, haid', ih]

lemma addToItems_nodup (p : Product) (q : ℤ) (l : List CartItem)
    (h : (l.map (fun item => item.product.id)).Nodup) :
    ((addToItems p q l).map (fun item => item.product.id)).Nodup := by
  rw [addToItems_map_id]
  by_cases hmem : p.id ∈ l.map (fun item => item.product.id)
  · simpa [hmem] using h
  · simp only [hmem, if_false]
    rw [List.nodup_append]
    refine ⟨h, List.nodup_singleton _, ?_⟩
    intro x hx
    simp only [List.mem_singleton]
    intro hxp
    exact hmem (hxp ▸ hx)

lemma addToItems_countId (p : Product) (q : ℤ) :
    ∀ l : List CartItem, countId p.id (addToItems p q l) = max (countId p.id l) 1 := by
  intro l
  induction l with
  | nil => simp [addToItems, countId]
  | cons a l ih =>
    by_cases ha : (a.product.id == p.id) = true
    · simp only [addToItems, ha, if_true, countId, List.filter_cons]
      have h1 : (countId p.id l) + 1 = max ((countId p.id l) + 1) 1 := by omega
      simp only [ha, countId] at h1 ⊢
      simp [ha]
    · simp only [addToItems, ha, Bool.false_eq_true, if_false, countId, List.filter_cons, ha]
      simpa [ha, countId] using ih

lemma addToItems_qtyOf (p : Product) (q : ℤ) :
    ∀ l : List CartItem, qtyOf p.id (addToItems p q l) = qtyOf p.id l + q := by
  intro l
  induction l with
  | nil => simp [addToItems, qtyOf]
  | cons a l ih =>
    by_cases ha : (a.product.id == p.id) = true
    · simp [addToItems, ha, qtyOf, List.find?_cons]
    · simp only [addToItems, ha, Bool.false_eq_true, if_false, qtyOf, List.find?_cons] at ih ⊢
      simpa [ha] using ih

lemma goodState_step (s : CartState) (a : CartAction)
    (hs : goodState s) (ha : itemActionOk a = true) :
    goodState (cartReducer s a) := by
  cases a with
  | addItem p q =>
    have hq : 1 ≤ q := by simpa [itemActionOk] using ha
    intro x hx
    rw [cartReducer_addItem, addItemBranch_eq_addToItems] at hx
    exact addToItems_quantity_pos p q hq s.items hs x hx
  | removeItem productId =>
    intro x hx
    simp only [cartReducer] at hx
    exact hs x (List.mem_of_mem_filter hx)
  | updateQuantity productId q =>
    by_cases hq : q ≤ 0
    · intro x hx
      simp only [cartReducer, if_pos hq] at hx
      exact hs x (List.mem_of_mem_filter hx)
    · intro x hx
      simp only [cartReducer, if_neg hq] at hx
      rcases List.mem_map.1 hx with ⟨y, hy, hxy⟩
      by_cases hid : (y.product.id == productId) = true
      · rw [if_pos hid] at hxy
        subst hxy
        simpa using by omega
      · rw [if_neg hid] at hxy
        subst hxy
        exact hs y hy
  | applyPromo pc => simp [itemActionOk] at ha
  | removePromo => simp [itemActionOk] at ha
  | clearCart => simp [itemActionOk] at ha

lemma addItem_items (s : CartState) (p : Product) (q : ℤ) :
    (addItem s p q).items = addToItems p q s.items := by
  rw [addItem, cartReducer_addItem, addItemBranch_eq_addToItems]

lemma addItem_nodup (s : CartState) (p : Product) (q : ℤ) (h : idsNodup s) :
    idsNodup (addItem s p q) := by
  rw [idsNodup, addItem_items]
  exact addToItems_nodup p q s.items h

lemma countId_le_one_of_nodup (productId : ℕ) :
    ∀ l : List CartItem, (l.map (fun item => item.product.id)).Nodup →
      countId productId l ≤ 1 := by
  intro l
  induction l with
  | nil => intro _; simp [countId]
  | cons a l ih =>
    intro h
    rw [List.map_cons, List.nodup_cons] at h
    by_cases ha : (a.product.id == productId) = true
    · have haid : a.product.id = productId := by simpa using ha
      have hzero :
          (List.filter (fun item => item.product.id == productId) l).length = 0 := by
        rw [List.length_eq_zero, List.filter_eq_nil_iff]
        intro x hx hxid
        apply h.1
        have hxp : x.product.id = productId := by simpa using hxid
        rw [haid, ← hxp]
        exact List.mem_map_of_mem (fun item => item.product.id) hx
      simp only [countId, List.filter_cons, ha, if_true, List.length_cons]
      omega
    · have := ih h.2
      simp only [countId, List.filter_cons, ha, Bool.false_eq_true, if_false] at this ⊢
      exact this

/-! ### Rounding lemmas -/

lemma roundToTwoDecimals_eq_floor (v : ℚ) :
    roundToTwoDecimals v = (⌊v * 100 + 1 / 2⌋ : ℚ) / 100 := by
  rw [roundToTwoDecimals, round_eq]

lemma roundToTwoDecimals_cent (n : ℤ) :
    roundToTwoDecimals ((n : ℚ) / 100) = (n : ℚ) / 100 := by
  rw [roundToTwoDecimals]
  have h : ((n : ℚ) / 100) * 100 = (n : ℚ) := by field_simp
  rw [h, round_intCast]

lemma roundToTwoDecimals_idem (v : ℚ) :
    roundToTwoDecimals (roundToTwoDecimals v) = roundToTwoDecimals v :=
  roundToTwoDecimals_cent (round (v * 100))

lemma roundToTwoDecimals_mono {v w : ℚ} (h : v ≤ w) :
    roundToTwoDecimals v ≤ roundToTwoDecimals w := by
  rw [roundToTwoDecimals, roundToTwoDecimals]
  have h1 : round (v * 100) ≤ round (w * 100) := by
    rw [round_eq, round_eq]
    exact Int.floor_mono (by linarith)
  exact (div_le_div_iff_of_pos_right (show (0 : ℚ) < 100 by norm_num)).2
    (Int.cast_le.2 h1)

lemma roundToTwoDecimals_zero : roundToTwoDecimals 0 = 0 := by
  simp [roundToTwoDecimals]

lemma roundToTwoDecimals_nonneg {v : ℚ} (h : 0 ≤ v) :
    0 ≤ roundToTwoDecimals v := by
  have := roundToTwoDecimals_mono h
  rwa [roundToTwoDecimals_zero] at this

lemma roundToTwoDecimals_bounds (v : ℚ) :
    roundToTwoDecimals v - 1 / 200 ≤ v ∧ v < roundToTwoDecimals v + 1 / 200 := by
  rw [roundToTwoDecimals_eq_floor]
  have h1 : ((⌊v * 100 + 1 / 2⌋ : ℤ) : ℚ) ≤ v * 100 + 1 / 2 := Int.floor_le _
  have h2 : v * 100 + 1 / 2 < ((⌊v * 100 + 1 / 2⌋ : ℤ) : ℚ) + 1 :=
    Int.lt_floor_add_one _
  constructor <;> linarith

/-! ### Totals projections -/

lemma calculateCartTotals_subtotal (s : CartState) :
    (calculateCartTotals s).subtotal =
      roundToTwoDecimals
        (s.items.foldl (fun sum item => sum + calculateItemSubtotal item) 0) := rfl

lemma calculateCartTotals_discountAmount (s : CartState) :
    (calculateCartTotals s).discountAmount =
      calculateDiscountAmount (calculateCartTotals s).subtotal
        (s.appliedPromoCode.map (fun pc => pc.discount)) := rfl

lemma calculateCartTotals_total (s : CartState) :
    (calculateCartTotals s).total =
      roundToTwoDecimals
        (max 0 ((calculateCartTotals s).subtotal -
          (calculateCartTotals s).discountAmount)) := rfl

lemma calculateDiscountAmount_stable (subtotal : ℚ) (d : Option Discount) :
    roundToTwoDecimals (calculateDiscountAmount subtotal d) =
      calculateDiscountAmount subtotal d := by
  rcases d with _ | d
  · exact roundToTwoDecimals_zero
  · exact roundToTwoDecimals_idem _

lemma calculateDiscountAmount_le (subtotal : ℚ) (d : Option Discount)
    (hsub : roundToTwoDecimals subtotal = subtotal) (h0 : 0 ≤ subtotal) :
    calculateDiscountAmount subtotal d ≤ subtotal := by
  rcases d with _ | d
  · exact h0
  · exact le_trans (roundToTwoDecimals_mono (min_le_right _ subtotal))
      (le_of_eq hsub)

lemma foldl_add_nonneg (f : CartItem → ℚ) :
    ∀ (l : List CartItem) (acc : ℚ), 0 ≤ acc → (∀ x ∈ l, 0 ≤ f x) →
      0 ≤ l.foldl (fun sum item => sum + f item) acc := by
  intro l
  induction l with
  | nil =>
    intro acc h _
    simpa using h
  | cons a l ih =>
    intro acc h hl
    simp only [List.foldl_cons]
    refine ih (acc + f a) ?_ (fun x hx => hl x (List.mem_cons_of_mem a hx))
    have := hl a (List.mem_cons_self a l)
    linarith

lemma calculateItemSubtotal_nonneg (item : CartItem)
    (hp : 0 ≤ item.product.price) (hq : 1 ≤ item.quantity) :
    0 ≤ calculateItemSubtotal item := by
  apply roundToTwoDecimals_nonneg
  have hq' : (0 : ℚ) ≤ (item.quantity : ℚ) := by
    have : (0 : ℤ) ≤ item.quantity := by linarith
    exact_mod_cast this
  exact mul_nonneg hp hq'

lemma subtotal_nonneg (s : CartState) (h : wellFormed s) :
    0 ≤ (calculateCartTotals s).subtotal := by
  rw [calculateCartTotals_subtotal]
  apply roundToTwoDecimals_nonneg
  apply foldl_add_nonneg calculateItemSubtotal s.items 0 le_rfl
  intro x hx
  exact calculateItemSubtotal_nonneg x (h x hx).1 (h x hx).2

lemma subtotal_stable (s : CartState) :
    roundToTwoDecimals (calculateCartTotals s).subtotal =
      (calculateCartTotals s).subtotal := by
  rw [calculateCartTotals_subtotal]
  exact roundToTwoDecimals_idem _

/-- C1 (amended): starting from a state whose quantities are all positive,
any sequence of item actions whose `ADD_ITEM` payloads are positive keeps
every line-item quantity at least 1. -/
theorem C1_no_nonpositive_quantities (s : CartState) (acts : List CartAction)
    (hs : goodState s) (ha : ∀ a ∈ acts, itemActionOk a = true) :
    goodState (acts.foldl cartReducer s) := by
  induction acts generalizing s with
  | nil => exact hs
  | cons a acts ih =>
    exact ih (cartReducer s a)
      (goodState_step s a hs (ha a (List.mem_cons_self a acts)))
      (fun b hb => ha b (List.mem_cons_of_mem a hb))

theorem C1_witness :
    goodState (List.foldl cartReducer initialState
      [CartAction.addItem { id := 1, name := [], price := 5 } 2,
       CartAction.addItem { id := 1, name := [], price := 5 } 3,
       CartAction.updateQuantity 1 7,
       CartAction.removeItem 2]) :=
  C1_no_nonpositive_quantities initialState _ (by intro x hx; simp [initialState] at hx) (by decide)

/-- C1 as frozen is false: dispatching `ADD_ITEM` with quantity 0 on an
absent product stores a line item with quantity 0. -/
theorem C1_counterexample :
    ∃ item ∈ (List.foldl cartReducer initialState
      [CartAction.addItem { id := 1, name := [], price := 5 } 0]).items,
      item.quantity ≤ 0 := by
  refine ⟨{ product := { id := 1, name := [], price := 5 }, quantity := 0 }, ?_, le_refl 0⟩
  decide

/-- C3: adding the same product twice merges into a single line item whose
quantity is the prior quantity plus both increments, and `addItem` never
introduces a duplicate product identifier. -/
theorem C3_addItem_merges (s : CartState) (p : Product) (q1 q2 : ℤ)
    (adds : List (Product × ℤ)) (h : idsNodup s) :
    countId p.id (addItem (addItem s p q1) p q2).items = 1 ∧
    qtyOf p.id (addItem (addItem s p q1) p q2).items =
      qtyOf p.id s.items + q1 + q2 ∧
    idsNodup (adds.foldl (fun st pq => addItem st pq.1 pq.2) s) := by
  refine ⟨?_, ?_, ?_⟩
  · rw [addItem_items, addItem_items, addToItems_countId, addToItems_countId]
    have := countId_le_one_of_nodup p.id s.items h
    omega
  · rw [addItem_items, addItem_items, addToItems_qtyOf, addToItems_qtyOf]
  · induction adds generalizing s with
    | nil => exact h
    | cons pq adds ih => exact ih (addItem s pq.1 pq.2) (addItem_nodup s pq.1 pq.2 h)

theorem C3_witness :
    countId 1 (addItem (addItem initialState { id := 1, name := [], price := 5 } 2)
      { id := 1, name := [], price := 5 } 3).items = 1 ∧
    qtyOf 1 (addItem (addItem initialState { id := 1, name := [], price := 5 } 2)
      { id := 1, name := [], price := 5 } 3).items =
      qtyOf 1 initialState.items + 2 + 3 ∧
    idsNodup ([({ id := 1, name := [], price := 5 }, (4 : ℤ)),
      ({ id := 2, name := [], price := 7 }, 1)].foldl
        (fun st pq => addItem st pq.1 pq.2) initialState) :=
  C3_addItem_merges initialState { id := 1, name := [], price := 5 } 2 3
    [({ id := 1, name := [], price := 5 }, 4), ({ id := 2, name := [], price := 7 }, 1)]
    (by simp [idsNodup, initialState])

/-- C4: `updateQuantity` with a non-positive quantity coincides with
`removeItem`; with a positive quantity it overwrites the matching line item's
quantity and keeps everything else; it is a no-op when the id is absent. -/
theorem C4_updateQuantity_spec (s : CartState) (productId : ℕ) (q : ℤ) :
    (q ≤ 0 → updateQuantity s productId q = removeItem s productId) ∧
    (0 < q → ∀ item ∈ s.items, item.product.id = productId →
        { product := item.product, quantity := q } ∈
          (updateQuantity s productId q).items) ∧
    (0 < q → (updateQuantity s productId q).items.length = s.items.length) ∧
    (0 < q → ∀ item ∈ (updateQuantity s productId q).items,
        item.product.id = productId → item.quantity = q) ∧
    (0 < q → ∀ item ∈ (updateQuantity s productId q).items,
        item.product.id ≠ productId → item ∈ s.items) ∧
    ((∀ item ∈ s.items, item.product.id ≠ productId) →
        updateQuantity s productId q = s) := by
  refine ⟨?_, ?_, ?_, ?_, ?_, ?_⟩
  · intro hq
    simp [updateQuantity, removeItem, cartReducer, if_pos hq]
  · intro hq item hitem hid
    simp only [updateQuantity, cartReducer, if_neg (not_le.2 hq)]
    exact List.mem_map.2 ⟨item, hitem,
      by rw [if_pos (show (item.product.id == productId) = true by simpa using hid)]⟩
  · intro hq
    simp only [updateQuantity, cartReducer, if_neg (not_le.2 hq), List.length_map]
  · intro hq item hitem hid
    simp only [updateQuantity, cartReducer, if_neg (not_le.2 hq)] at hitem
    rcases List.mem_map.1 hitem with ⟨y, hy, hxy⟩
    by_cases hyid : (y.product.id == productId) = true
    · rw [if_pos hyid] at hxy
      subst hxy
      rfl
    · rw [if_neg hyid] at hxy
      subst hxy
      exact absurd hid (by simpa using hyid)
  · intro hq item hitem hid
    simp only [updateQuantity, cartReducer, if_neg (not_le.2 hq)] at hitem
    rcases List.mem_map.1 hitem with ⟨y, hy, hxy⟩
    by_cases hyid : (y.product.id == productId) = true
    · rw [if_pos hyid] at hxy
      subst hxy
      exact absurd (by simpa using hyid) hid
    · rw [if_neg hyid] at hxy
      subst hxy
      exact hy
  · intro habs
    rcases s with ⟨items, promo⟩
    simp only [updateQuantity, cartReducer]
    by_cases hq : q ≤ 0
    · rw [if_pos hq]
      simp only [CartState.mk.injEq, and_true]
      rw [List.filter_eq_self]
      intro a ha
      simpa using habs a ha
    · rw [if_neg hq]
      simp only [CartState.mk.injEq, and_true]
      rw [List.map_congr_left (g := id) ?_, List.map_id]
      intro a ha
      have : (a.product.id == productId) = false := by simpa using habs a ha
      simp [this]

theorem C4_witness :
    (updateQuantity sampleState 1 0 = removeItem sampleState 1) ∧
    { product := { id := 1, name := [], price := 5 }, quantity := (7 : ℤ) } ∈
      (updateQuantity sampleState 1 7).items ∧
    (updateQuantity sampleState 1 7).items.length = sampleState.items.length ∧
    (∀ item ∈ (updateQuantity sampleState 1 7).items,
      item.product.id = 1 → item.quantity = 7) ∧
    (updateQuantity sampleState 2 7 = sampleState) :=
  ⟨(C4_updateQuantity_spec sampleState 1 0).1 (by decide),
   (C4_updateQuantity_spec sampleState 1 7).2.1 (by decide)
     { product := { id := 1, name := [], price := 5 }, quantity := 3 }
     (by decide) rfl,
   (C4_updateQuantity_spec sampleState 1 7).2.2.1 (by decide),
   (C4_updateQuantity_spec sampleState 1 7).2.2.2.1 (by decide),
   (C4_updateQuantity_spec sampleState 2 7).2.2.2.2.2 (by decide)⟩

/-- C9: `clearCart` always returns the canonical empty state. -/
theorem C9_clearCart_canonical (s : CartState) :
    clearCart s = initialState ∧
    initialState.items = [] ∧ initialState.appliedPromoCode = none :=
  ⟨rfl, rfl, rfl⟩

/-- C10: item operations never touch the applied promo code, and promo
operations never touch the item list. -/
theorem C10_frame_conditions (s : CartState) (p : Product) (q : ℤ)
    (productId : ℕ) (pc : PromoCode) (code : List Char)
    (catalog : List PromoCode) :
    (addItem s p q).appliedPromoCode = s.appliedPromoCode ∧
    (removeItem s productId).appliedPromoCode = s.appliedPromoCode ∧
    (updateQuantity s productId q).appliedPromoCode = s.appliedPromoCode ∧
    (cartReducer s (.applyPromo pc)).items = s.items ∧
    (removePromoCode s).items = s.items ∧
    (applyPromoCode s code catalog).2.items = s.items := by
  refine ⟨?_, rfl, ?_, rfl, rfl, ?_⟩
  · rw [addItem, cartReducer_addItem]
  · by_cases hq : q ≤ 0 <;> simp [updateQuantity, cartReducer, hq]
  · rcases h : validatePromoCode code catalog with _ | vc <;>
      simp [applyPromoCode, h, cartReducer]

/-- C2: on well-formed carts the discount never exceeds the subtotal and the
total is never negative, whichever discount kind is applied. -/
theorem C2_totals_bounded (s : CartState) (h : wellFormed s) :
    (calculateCartTotals s).discountAmount ≤ (calculateCartTotals s).subtotal ∧
    0 ≤ (calculateCartTotals s).total := by
  constructor
  · rw [calculateCartTotals_discountAmount]
    exact calculateDiscountAmount_le _ _ (subtotal_stable s) (subtotal_nonneg s h)
  · rw [calculateCartTotals_total]
    exact roundToTwoDecimals_nonneg (le_max_left 0 _)

theorem C2_witness :
    (calculateCartTotals sampleState).discountAmount ≤
      (calculateCartTotals sampleState).subtotal ∧
    0 ≤ (calculateCartTotals sampleState).total :=
  C2_totals_bounded sampleState (by
    intro x hx
    simp only [sampleState, List.mem_singleton] at hx
    subst hx
    constructor <;> norm_num)

/-- C7: `roundToTwoDecimals` yields the multiple of 1/100 nearest to its
argument with ties rounded upward, and each monetary output of the
calculators (item subtotal, cart subtotal, discount amount, total) is a
fixed point of it, i.e. rounding is applied at each aggregation step. -/
theorem C7_rounding_policy (v : ℚ) (_hv : 0 ≤ v) (m : ℤ)
    (item : CartItem) (s : CartState) :
    (∃ n : ℤ, roundToTwoDecimals v = (n : ℚ) / 100) ∧
    (roundToTwoDecimals v - 1 / 200 ≤ v ∧ v < roundToTwoDecimals v + 1 / 200) ∧
    |roundToTwoDecimals v - v| ≤ |(m : ℚ) / 100 - v| ∧
    roundToTwoDecimals (calculateItemSubtotal item) = calculateItemSubtotal item ∧
    roundToTwoDecimals (calculateCartTotals s).subtotal =
      (calculateCartTotals s).subtotal ∧
    roundToTwoDecimals (calculateCartTotals s).discountAmount =
      (calculateCartTotals s).discountAmount ∧
    roundToTwoDecimals (calculateCartTotals s).total =
      (calculateCartTotals s).total := by
  obtain ⟨hlo, hhi⟩ := roundToTwoDecimals_bounds v
  have habs : |roundToTwoDecimals v - v| ≤ 1 / 200 :=
    abs_le.2 ⟨by linarith, by linarith⟩
  refine ⟨⟨round (v * 100), rfl⟩, ⟨hlo, hhi⟩, ?_, roundToTwoDecimals_idem _,
    subtotal_stable s, ?_, ?_⟩
  · rcases eq_or_ne ((m : ℚ) / 100) (roundToTwoDecimals v) with he | hne
    · rw [he]
    · have hmn : (1 : ℚ) ≤ |(m : ℚ) - round (v * 100)| := by
        have hz : (m : ℚ) ≠ (round (v * 100) : ℚ) := by
          intro heq
          apply hne
          rw [roundToTwoDecimals, ← heq]
        have hz' : m ≠ round (v * 100) := fun hh => hz (by exact_mod_cast hh)
        have : (1 : ℤ) ≤ |m - round (v * 100)| :=
          Int.one_le_abs (sub_ne_zero.2 hz')
        calc (1 : ℚ) = ((1 : ℤ) : ℚ) := by norm_num
          _ ≤ ((|m - round (v * 100)| : ℤ) : ℚ) := by exact_mod_cast this
          _ = |(m : ℚ) - round (v * 100)| := by push_cast; rfl
      have hdist : (1 : ℚ) / 100 ≤ |(m : ℚ) / 100 - roundToTwoDecimals v| := by
        rw [roundToTwoDecimals, div_sub_div_same, abs_div,
          abs_of_pos (show (0 : ℚ) < 100 by norm_num)]
        rw [div_le_div_iff_of_pos_right (show (0 : ℚ) < 100 by norm_num)]
        exact hmn
      have htri : |(m : ℚ) / 100 - roundToTwoDecimals v| ≤
          |(m : ℚ) / 100 - v| + |v - roundToTwoDecimals v| :=
        abs_sub_le _ v _
      have hsym : |v - roundToTwoDecimals v| = |roundToTwoDecimals v - v| :=
        abs_sub_comm _ _
      linarith
  · rw [calculateCartTotals_discountAmount]
    exact calculateDiscountAmount_stable _ _
  · rw [calculateCartTotals_total]
    exact roundToTwoDecimals_idem _

theorem C7_witness :
    (∃ n : ℤ, roundToTwoDecimals (1 / 8) = (n : ℚ) / 100) ∧
    (roundToTwoDecimals (1 / 8) - 1 / 200 ≤ (1 : ℚ) / 8 ∧
      (1 : ℚ) / 8 < roundToTwoDecimals (1 / 8) + 1 / 200) ∧
    |roundToTwoDecimals (1 / 8) - 1 / 8| ≤ |((12 : ℤ) : ℚ) / 100 - 1 / 8| ∧
    roundToTwoDecimals (calculateItemSubtotal
      { product := { id := 1, name := [], price := 5 }, quantity := 3 }) =
      calculateItemSubtotal
        { product := { id := 1, name := [], price := 5 }, quantity := 3 } ∧
    roundToTwoDecimals (calculateCartTotals sampleState).subtotal =
      (calculateCartTotals sampleState).subtotal ∧
    roundToTwoDecimals (calculateCartTotals sampleState).discountAmount =
      (calculateCartTotals sampleState).discountAmount ∧
    roundToTwoDecimals (calculateCartTotals sampleState).total =
      (calculateCartTotals sampleState).total :=
  C7_rounding_policy (1 / 8) (by norm_num) 12
    { product := { id := 1, name := [], price := 5 }, quantity := 3 } sampleState

/-- C8: the three literal calculation scenarios of the spec. -/
theorem C8_concrete_scenarios (p : Product) (hp : p.price = 1099 / 100)
    (s1 : CartState) (pc1 : PromoCode) (h1 : s1.appliedPromoCode = some pc1)
    (h2 : pc1.discount = .percentage 15)
    (h3 : (calculateCartTotals s1).subtotal = 100)
    (s2 : CartState) (pc2 : PromoCode) (h4 : s2.appliedPromoCode = some pc2)
    (h5 : pc2.discount = .fixed 50)
    (h6 : (calculateCartTotals s2).subtotal = 30) :
    calculateItemSubtotal { product := p, quantity := 2 } = 2198 / 100 ∧
    (calculateCartTotals s1).discountAmount = 15 ∧
    (calculateCartTotals s1).total = 85 ∧
    (calculateCartTotals s2).discountAmount = 30 ∧
    (calculateCartTotals s2).total = 0 := by
  have hd1 : (calculateCartTotals s1).discountAmount = 15 := by
    rw [calculateCartTotals_discountAmount, h3, h1, Option.map_some', h2]
    simp only [calculateDiscountAmount]
    rw [show (100 : ℚ) * 15 / 100 = 15 by norm_num,
      min_eq_left (show (15 : ℚ) ≤ 100 by norm_num)]
    norm_num [roundToTwoDecimals, round_eq]
  have hd2 : (calculateCartTotals s2).discountAmount = 30 := by
    rw [calculateCartTotals_discountAmount, h6, h4, Option.map_some', h5]
    simp only [calculateDiscountAmount]
    rw [min_eq_right (show (30 : ℚ) ≤ 50 by norm_num)]
    norm_num [roundToTwoDecimals, round_eq]
  refine ⟨?_, hd1, ?_, hd2, ?_⟩
  · simp only [calculateItemSubtotal, hp]
    norm_num [roundToTwoDecimals, round_eq]
  · rw [calculateCartTotals_total, h3, hd1]
    rw [show (100 : ℚ) - 15 = 85 by norm_num,
      max_eq_right (show (0 : ℚ) ≤ 85 by norm_num)]
    norm_num [roundToTwoDecimals, round_eq]
  · rw [calculateCartTotals_total, h6, hd2]
    rw [show (30 : ℚ) - 30 = 0 by norm_num, max_self]
    norm_num [roundToTwoDecimals, round_eq]

theorem C8_witness :
    calculateItemSubtotal
      { product := { id := 1, name := [], price := 1099 / 100 }, quantity := 2 } =
      2198 / 100 ∧
    (calculateCartTotals pctCart).discountAmount = 15 ∧
    (calculateCartTotals pctCart).total = 85 ∧
    (calculateCartTotals fixedCart).discountAmount = 30 ∧
    (calculateCartTotals fixedCart).total = 0 :=
  C8_concrete_scenarios { id := 1, name := [], price := 1099 / 100 } rfl
    pctCart pctPromo rfl rfl
    (by norm_num [calculateCartTotals_subtotal, pctCart, calculateItemSubtotal,
      roundToTwoDecimals, round_eq])
    fixedCart fixedPromo rfl rfl
    (by norm_num [calculateCartTotals_subtotal, fixedCart, calculateItemSubtotal,
      roundToTwoDecimals, round_eq])

/-- C5: promo validation trims, uppercases, matches against the catalog,
returns `none` when nothing matches (in particular on the empty string for
catalogs of nonempty codes), and cannot fail in any other way. -/
theorem C5_validatePromoCode_spec (code : List Char) (catalog : List PromoCode) :
    (∀ pc, validatePromoCode code catalog = some pc →
      pc ∈ catalog ∧ pc.code = jsToUpperCase (jsTrim code)) ∧
    (validatePromoCode code catalog = none →
      ∀ pc ∈ catalog, pc.code ≠ jsToUpperCase (jsTrim code)) ∧
    validatePromoCode "save15".data catalog =
      validatePromoCode " SAVE15 ".data catalog ∧
    ((∀ pc ∈ catalog, pc.code ≠ []) → validatePromoCode [] catalog = none) := by
  refine ⟨?_, ?_, ?_, ?_⟩
  · intro pc h
    refine ⟨List.mem_of_find?_eq_some h, ?_⟩
    have := List.find?_some h
    simpa using this
  · intro h pc hpc
    have := List.find?_eq_none.1 h pc hpc
    simpa using this
  · have hnorm : jsToUpperCase (jsTrim "save15".data) =
        jsToUpperCase (jsTrim " SAVE15 ".data) := by decide
    unfold validatePromoCode
    rw [hnorm]
  · intro h
    unfold validatePromoCode
    rw [List.find?_eq_none]
    intro pc hpc
    have : pc.code ≠ [] := h pc hpc
    simpa using this

theorem C5_witness :
    (pctPromo ∈ sampleCatalog ∧
      pctPromo.code = jsToUpperCase (jsTrim "save15".data)) ∧
    validatePromoCode "save15".data sampleCatalog =
      validatePromoCode " SAVE15 ".data sampleCatalog ∧
    validatePromoCode [] sampleCatalog = none :=
  ⟨(C5_validatePromoCode_spec "save15".data sampleCatalog).1 pctPromo (by decide),
   (C5_validatePromoCode_spec "save15".data sampleCatalog).2.2.1,
   (C5_validatePromoCode_spec [] sampleCatalog).2.2.2 (by decide)⟩

/-- C6: `applyPromoCode` returns `true` and records exactly the validated
promo on success, and returns `false` leaving the whole state untouched on
failure; the outcome is only ever reported through the returned boolean. -/
theorem C6_applyPromoCode_spec (s : CartState) (code : List Char)
    (catalog : List PromoCode) :
    (∀ pc, validatePromoCode code catalog = some pc →
      applyPromoCode s code catalog =
        (true, { s with appliedPromoCode := some pc })) ∧
    (validatePromoCode code catalog = none →
      applyPromoCode s code catalog = (false, s)) := by
  constructor
  · intro pc h
    simp [applyPromoCode, h, cartReducer]
  · intro h
    simp [applyPromoCode, h]

theorem C6_witness :
    applyPromoCode sampleState "save15".data sampleCatalog =
      (true, { sampleState with appliedPromoCode := some pctPromo }) ∧
    applyPromoCode sampleState "nope".data sampleCatalog = (false, sampleState) :=
  ⟨(C6_applyPromoCode_spec sampleState "save15".data sampleCatalog).1 pctPromo
      (by decide),
   (C6_applyPromoCode_spec sampleState "nope".data sampleCatalog).2 (by decide)⟩

end EcommerceCart
